import Mathlib

/-!
Verification of the asynchronous PostgreSQL query scheduler `pquv`
(src/pquv.c, src/pquv.h) against its natural-language specification.

The C code is shallowly embedded: the `pg_async_t` context becomes the
structure `PgAsync`, queries become `Query` values, and the singly-linked
FIFO queue (head/tail pointers with O(1) append) becomes a `List Query`
whose head is the queue head.  Every externally observable action of the
code — user callbacks, frees, libuv handle operations, libpq sends — is
recorded as an `Event`; each embedded function returns the updated state
together with the list of events it emitted, in program order.

The external collaborators (libpq driver, libuv reactor) are oracles:
their return values (`PQsendQuery` success, `PQconsumeInput` success,
`PQisBusy`, the stream of `PGresult` objects, uv error codes) are inputs
to the embedded functions, supplied through the `DispatchEnv` / `PollEnv`
environments.

The Unix (`uv_poll`) compile-time variant of the code is embedded at top
level; the Windows (`uv_timer`) variant, where it differs, is embedded in
the `Win` namespace.
-/

/-- ExecStatus models libpq's `ExecStatusType`.  The code only
distinguishes `PGRES_TUPLES_OK` / `PGRES_COMMAND_OK` from everything
else. -/
inductive ExecStatus where
  | emptyQuery
  | commandOk
  | tuplesOk
  | copyOut
  | copyIn
  | badResponse
  | nonfatalError
  | fatalError
deriving DecidableEq

/-- Res models one `PGresult` object returned by `PQgetResult`: its
status, an abstract value identifying the result object (so that "one
callback per result object" is expressible), and the message
`PQresultErrorMessage` would yield. -/
structure Res where
  status : ExecStatus
  val : Nat
  errMsg : String
deriving DecidableEq

/-- Query models `pg_query_t` (src/pquv.h).  `params` is the owned
parameter array: `none` entries model NULL parameters.  `param_count`
equals `params.length` by construction in `pquv_queue`.  `has_cb` models
whether `result_cb` is non-NULL, and `opId` models the identity of the
`(result_cb, data)` pair, used to name the operation in events.  The
`next` link is absorbed into the queue list. -/
structure Query where
  sql : String
  params : List (Option String)
  has_cb : Bool
  opId : Nat
deriving DecidableEq

/-- Event is the trace alphabet: every externally observable action the
code performs. -/
inductive Event where
  | callback (opId : Nat) (val : Nat)
  | freeOp (opId : Nat)
  | freeCtx
  | closeRequest
  | pqcancel
  | pqfinish
  | sendSimple (opId : Nat) (sql : String)
  | sendParams (opId : Nat) (sql : String) (params : List (Option String))
  | pollInit
  | pollStart
  | pollStop
  | timerInit
  | timerStart
  | timerStop
deriving DecidableEq

/-- PgAsync models `pg_async_t` (src/pquv.h).  `handle_initialized`
models `poll.type != UV_UNKNOWN_HANDLE` (resp. `timer.type`), the test
`pg_async_destroy` uses; `handle_active` models "started and not yet
stopped"; `handle_closing` models `uv_is_closing`.  `conn_present`
models `pg->conn != NULL` and `freed` records that `free(pg)` ran. -/
structure PgAsync where
  conn_present : Bool
  owns_connection : Bool
  is_connected : Bool
  is_executing : Bool
  destroying : Bool
  handle_initialized : Bool
  handle_active : Bool
  handle_closing : Bool
  query_queue : List Query
  current_query : Option Query
  error_message : Option String
  freed : Bool
deriving DecidableEq

/-- DispatchEnv supplies the collaborator responses consumed by one call
to `execute_next_query`: whether the libpq send succeeds, the value of
`PQsocket`, and whether `uv_poll_init` / `uv_poll_start` succeed,
together with the error strings the collaborators would report. -/
structure DispatchEnv where
  sendOk : Bool
  sock : Int
  pollInitOk : Bool
  pollStartOk : Bool
  connErrMsg : String
  uvErrMsg : String
deriving DecidableEq

/-- PollEnv supplies the collaborator responses consumed by one
invocation of `on_poll`: the uv status argument, the `PQconsumeInput`
and `PQisBusy` answers, the stream of results `PQgetResult` yields
before returning NULL, and the environment for the dispatch that may
follow draining. -/
structure PollEnv where
  status : Int
  consumeOk : Bool
  busy : Bool
  results : List Res
  connErrMsg : String
  uvErrMsg : String
  next : DispatchEnv
deriving DecidableEq

/-- statusOk s holds of the two statuses the drain loop treats as
success (`PGRES_TUPLES_OK`, `PGRES_COMMAND_OK`). -/
def statusOk : ExecStatus → Bool
  | .tuplesOk => true
  | .commandOk => true
  | _ => false

/-- cbProj projects a trace event to the user-callback view: the
operation id and result value of a `callback` event. -/
def cbProj : Event → Option (Nat × Nat)
  | .callback i v => some (i, v)
  | _ => none

/-- isSendEvent recognizes the events modelling `PQsendQuery` /
`PQsendQueryParams`. -/
def isSendEvent : Event → Bool
  | .sendSimple _ _ => true
  | .sendParams _ _ _ => true
  | _ => false

/-- cbEvents q rs is the callback-event sequence the drain loop emits
for the result objects `rs` of operation `q` (one invocation per result
object when a callback is registered, src/pquv.c:440-443). -/
def cbEvents (q : Query) (rs : List Res) : List Event :=
  if q.has_cb then rs.map (fun r => Event.callback q.opId r.val) else []

/-- sendEvents q is the send event of dispatching `q`
(src/pquv.c:270-284): `PQsendQueryParams` when `param_count > 0`,
otherwise `PQsendQuery`. -/
def sendEvents (q : Query) : List Event :=
  if 0 < q.params.length then [Event.sendParams q.opId q.sql q.params]
  else [Event.sendSimple q.opId q.sql]

/-- on_handle_closed embeds the uv close-completion callback
(src/pquv.c:17-27): it frees the stored error message and the context.
The `handle->data` NULL check never fires in the model (the data pointer
is set at creation and never cleared). -/
def on_handle_closed (pg : PgAsync) : PgAsync × List Event :=
  ({ pg with freed := true }, [Event.freeCtx])

/-- pquv_create embeds src/pquv.c:30-71.  `conn_ok` is the oracle for
`existing_conn != NULL && PQstatus(existing_conn) == CONNECTION_OK`;
allocation is assumed to succeed.  `calloc` zero-fills the structure, so
every flag starts false, the queue is empty, and the handle memory is
zeroed (`type = UV_UNKNOWN_HANDLE`, i.e. `handle_initialized = false`). -/
def pquv_create (conn_ok : Bool) : Option PgAsync :=
  if !conn_ok then none
  else some
    { conn_present := true
      owns_connection := false
      is_connected := true
      is_executing := false
      destroying := false
      handle_initialized := false
      handle_active := false
      handle_closing := false
      query_queue := []
      current_query := none
      error_message := none
      freed := false }

/-- freshPg is the context `pquv_create` returns on success. -/
def freshPg : PgAsync :=
  { conn_present := true
    owns_connection := false
    is_connected := true
    is_executing := false
    destroying := false
    handle_initialized := false
    handle_active := false
    handle_closing := false
    query_queue := []
    current_query := none
    error_message := none
    freed := false }

/-- pquv_queue embeds src/pquv.c:74-137.  `sql = none` models a NULL sql
pointer (the NULL-context check is outside a value model, and allocation
is assumed to succeed).  The copy loop `params[i] ? strdup(params[i]) :
NULL` becomes the `match` inside the map: NULL stays NULL, a string is
copied.  Appending through the tail pointer becomes list append. -/
def pquv_queue (pg : PgAsync) (sql : Option String)
    (params : List (Option String)) (has_cb : Bool) (opId : Nat) :
    Int × PgAsync :=
  match sql with
  | none => (-1, pg)
  | some s =>
      let copied := params.map (fun p => match p with
        | some v => some v
        | none => none)
      let q : Query := { sql := s, params := copied, has_cb := has_cb, opId := opId }
      (0, { pg with query_queue := pg.query_queue ++ [q] })

/-- pg_async_cancel embeds src/pquv.c:173-207 (Unix variant): if
executing, stop the poll handle and issue the best-effort
`PQgetCancel`/`PQcancel`/`PQfreeCancel` block (one `pqcancel` event),
clear `is_executing`; then free every queued operation and reset the
queue head/tail to empty.  The current operation is not touched. -/
def pg_async_cancel (pg : PgAsync) : PgAsync × List Event :=
  let (pg1, ev1) :=
    if pg.is_executing then
      ({ pg with handle_active := false, is_executing := false },
       [Event.pollStop, Event.pqcancel])
    else (pg, ([] : List Event))
  let evFree := pg1.query_queue.map (fun q => Event.freeOp q.opId)
  ({ pg1 with query_queue := [] }, ev1 ++ evFree)

/-- pg_async_destroy embeds src/pquv.c:210-246 (Unix variant): guarded
by `destroying`; cancels outstanding work; finishes the connection only
if owned; then, if the poll handle was ever initialized
(`poll.type != UV_UNKNOWN_HANDLE`) and is not already closing, requests
its asynchronous close (the free happens later in `on_handle_closed`);
if the handle was never initialized, frees the error message and the
context immediately. -/
def pg_async_destroy (pg : PgAsync) : PgAsync × List Event :=
  if pg.destroying then (pg, [])
  else
    let pg1 := { pg with destroying := true }
    let (pg2, ev2) := pg_async_cancel pg1
    let (pg3, ev3) :=
      if pg2.conn_present && pg2.owns_connection then
        ({ pg2 with conn_present := false }, [Event.pqfinish])
      else (pg2, ([] : List Event))
    if pg3.handle_initialized then
      if !pg3.handle_closing then
        ({ pg3 with handle_closing := true }, ev2 ++ ev3 ++ [Event.closeRequest])
      else (pg3, ev2 ++ ev3)
    else
      ({ pg3 with freed := true }, ev2 ++ ev3 ++ [Event.freeCtx])

/-- handle_error embeds src/pquv.c:496-522 (Unix variant): stop the poll
handle and clear `is_executing` if executing, replace the stored error
message, cancel remaining queries, then destroy the context.  Note that
it does not free `current_query`. -/
def handle_error (error : Option String) (pg : PgAsync) : PgAsync × List Event :=
  let (pg1, ev1) :=
    if pg.is_executing then
      ({ pg with handle_active := false, is_executing := false }, [Event.pollStop])
    else (pg, ([] : List Event))
  let pg2 := { pg1 with error_message := error }
  let (pg3, ev3) := pg_async_cancel pg2
  let (pg4, ev4) := pg_async_destroy pg3
  (pg4, ev1 ++ ev3 ++ ev4)

/-- execute_next_query embeds src/pquv.c:249-340 (Unix variant).  Empty
queue: clear `is_executing` and destroy.  Otherwise pop the head into
`current_query`, send it (`PQsendQueryParams` when `param_count > 0`,
else `PQsendQuery`); on send failure route to `handle_error`.  On send
success check `PQsocket`, then call `uv_poll_init` — unconditionally, on
every dispatch — and `uv_poll_start(UV_READABLE|UV_WRITABLE)`, routing
either failure to `handle_error`.  A successful `uv_poll_init` marks the
handle initialized (`poll.type` becomes non-zero). -/
def execute_next_query (env : DispatchEnv) (pg : PgAsync) : PgAsync × List Event :=
  match pg.query_queue with
  | [] =>
      let pg1 := { pg with is_executing := false }
      pg_async_destroy pg1
  | q :: rest =>
      let pg1 := { pg with current_query := some q, query_queue := rest }
      let evSend := sendEvents q
      if !env.sendOk then
        let (pg2, ev2) := handle_error (some env.connErrMsg) pg1
        (pg2, evSend ++ ev2)
      else if env.sock < 0 then
        let (pg2, ev2) := handle_error (some "Invalid PostgreSQL socket") pg1
        (pg2, evSend ++ ev2)
      else if !env.pollInitOk then
        let (pg2, ev2) := handle_error (some env.uvErrMsg) pg1
        (pg2, evSend ++ [Event.pollInit] ++ ev2)
      else
        let pg2 := { pg1 with handle_initialized := true }
        if !env.pollStartOk then
          let (pg3, ev3) := handle_error (some env.uvErrMsg) pg2
          (pg3, evSend ++ [Event.pollInit] ++ ev3)
        else
          ({ pg2 with handle_active := true },
           evSend ++ [Event.pollInit, Event.pollStart])

/-- on_poll_drain embeds the `while ((result = PQgetResult(conn)) != NULL)`
loop of `on_poll` (src/pquv.c:437-460) together with its continuation
(src/pquv.c:462-465).  Per result: invoke the callback if registered;
if the status is neither `PGRES_TUPLES_OK` nor `PGRES_COMMAND_OK`,
clear the result, free the current operation, clear `current_query`,
route to `handle_error` and return (remaining results are never pulled).
When the loop exhausts the results, stop the poll handle, free the
current operation, clear `current_query` and dispatch the next query. -/
def on_poll_drain (denv : DispatchEnv) (pg : PgAsync) : List Res → PgAsync × List Event
  | [] =>
      let pg1 := { pg with handle_active := false }
      let evFree := match pg1.current_query with
        | some q => [Event.freeOp q.opId]
        | none => []
      let pg2 := { pg1 with current_query := none }
      let (pg3, ev3) := execute_next_query denv pg2
      (pg3, Event.pollStop :: (evFree ++ ev3))
  | r :: rest =>
      let evCb := match pg.current_query with
        | some q => if q.has_cb then [Event.callback q.opId r.val] else []
        | none => []
      if statusOk r.status = false then
        let evFree := match pg.current_query with
          | some q => [Event.freeOp q.opId]
          | none => []
        let pg1 := { pg with current_query := none }
        let (pg2, ev2) := handle_error (some r.errMsg) pg1
        (pg2, evCb ++ evFree ++ ev2)
      else
        let (pg1, ev1) := on_poll_drain denv pg rest
        (pg1, evCb ++ ev1)

/-- on_poll embeds src/pquv.c:405-466: ignore the invocation if
`destroying` is set; route a negative uv status or a `PQconsumeInput`
failure to `handle_error`; return if `PQisBusy`; otherwise drain the
available results. -/
def on_poll (env : PollEnv) (pg : PgAsync) : PgAsync × List Event :=
  if pg.destroying then (pg, [])
  else if env.status < 0 then handle_error (some env.uvErrMsg) pg
  else if !env.consumeOk then handle_error (some env.connErrMsg) pg
  else if env.busy then (pg, [])
  else on_poll_drain env.next pg env.results

/-- pquv_execute embeds src/pquv.c:140-170: reject when not connected or
already executing; destroy immediately when the queue is empty; otherwise
set `is_executing` and dispatch the head of the queue.  The NULL-context
check is outside a value model. -/
def pquv_execute (env : DispatchEnv) (pg : PgAsync) : Int × PgAsync × List Event :=
  if !pg.is_connected then (-1, pg, [])
  else if pg.is_executing then (-1, pg, [])
  else if pg.query_queue.isEmpty then
    let (pg1, ev1) := pg_async_destroy pg
    (0, pg1, ev1)
  else
    let pg1 := { pg with is_executing := true }
    let (pg2, ev2) := execute_next_query env pg1
    (0, pg2, ev2)

namespace Win

/-- WDispatchEnv supplies the collaborator responses for the Windows
variant of `execute_next_query`: libpq send success and the
`uv_timer_init` / `uv_timer_start` results. -/
structure WDispatchEnv where
  sendOk : Bool
  timerInitOk : Bool
  timerStartOk : Bool
  connErrMsg : String
  uvErrMsg : String
deriving DecidableEq

/-- WPollEnv supplies the collaborator responses for one `on_timer`
invocation (timers have no uv status argument). -/
structure WPollEnv where
  consumeOk : Bool
  busy : Bool
  results : List Res
  connErrMsg : String
  next : WDispatchEnv
deriving DecidableEq

/-- pg_async_cancel embeds src/pquv.c:173-207 under `_WIN32`
(`uv_timer_stop` instead of `uv_poll_stop`). -/
def pg_async_cancel (pg : PgAsync) : PgAsync × List Event :=
  let (pg1, ev1) :=
    if pg.is_executing then
      ({ pg with handle_active := false, is_executing := false },
       [Event.timerStop, Event.pqcancel])
    else (pg, ([] : List Event))
  let evFree := pg1.query_queue.map (fun q => Event.freeOp q.opId)
  ({ pg1 with query_queue := [] }, ev1 ++ evFree)

/-- pg_async_destroy embeds src/pquv.c:210-246 under `_WIN32` (the
handle whose `type` is tested and which is closed is the timer). -/
def pg_async_destroy (pg : PgAsync) : PgAsync × List Event :=
  if pg.destroying then (pg, [])
  else
    let pg1 := { pg with destroying := true }
    let (pg2, ev2) := pg_async_cancel pg1
    let (pg3, ev3) :=
      if pg2.conn_present && pg2.owns_connection then
        ({ pg2 with conn_present := false }, [Event.pqfinish])
      else (pg2, ([] : List Event))
    if pg3.handle_initialized then
      if !pg3.handle_closing then
        ({ pg3 with handle_closing := true }, ev2 ++ ev3 ++ [Event.closeRequest])
      else (pg3, ev2 ++ ev3)
    else
      ({ pg3 with freed := true }, ev2 ++ ev3 ++ [Event.freeCtx])

/-- handle_error embeds src/pquv.c:496-522 under `_WIN32`
(`uv_timer_stop`). -/
def handle_error (error : Option String) (pg : PgAsync) : PgAsync × List Event :=
  let (pg1, ev1) :=
    if pg.is_executing then
      ({ pg with handle_active := false, is_executing := false }, [Event.timerStop])
    else (pg, ([] : List Event))
  let pg2 := { pg1 with error_message := error }
  let (pg3, ev3) := pg_async_cancel pg2
  let (pg4, ev4) := pg_async_destroy pg3
  (pg4, ev1 ++ ev3 ++ ev4)

/-- execute_next_query embeds src/pquv.c:249-311 under `_WIN32`: no
socket check; `uv_timer_init` is called unconditionally on every
dispatch, then `uv_timer_start(on_timer, 10, 10)`. -/
def execute_next_query (env : WDispatchEnv) (pg : PgAsync) : PgAsync × List Event :=
  match pg.query_queue with
  | [] =>
      let pg1 := { pg with is_executing := false }
      pg_async_destroy pg1
  | q :: rest =>
      let pg1 := { pg with current_query := some q, query_queue := rest }
      let evSend := sendEvents q
      if !env.sendOk then
        let (pg2, ev2) := handle_error (some env.connErrMsg) pg1
        (pg2, evSend ++ ev2)
      else if !env.timerInitOk then
        let (pg2, ev2) := handle_error (some env.uvErrMsg) pg1
        (pg2, evSend ++ [Event.timerInit] ++ ev2)
      else
        let pg2 := { pg1 with handle_initialized := true }
        if !env.timerStartOk then
          let (pg3, ev3) := handle_error (some env.uvErrMsg) pg2
          (pg3, evSend ++ [Event.timerInit] ++ ev3)
        else
          ({ pg2 with handle_active := true },
           evSend ++ [Event.timerInit, Event.timerStart])

/-- on_timer_drain embeds the `PQgetResult` loop of `on_timer`
(src/pquv.c:374-397) with its continuation (src/pquv.c:399-401).  Unlike
the poll variant, the timer was already stopped before the loop, so the
exhausted branch performs no stop. -/
def on_timer_drain (denv : WDispatchEnv) (pg : PgAsync) : List Res → PgAsync × List Event
  | [] =>
      let evFree := match pg.current_query with
        | some q => [Event.freeOp q.opId]
        | none => []
      let pg1 := { pg with current_query := none }
      let (pg2, ev2) := execute_next_query denv pg1
      (pg2, evFree ++ ev2)
  | r :: rest =>
      let evCb := match pg.current_query with
        | some q => if q.has_cb then [Event.callback q.opId r.val] else []
        | none => []
      if statusOk r.status = false then
        let evFree := match pg.current_query with
          | some q => [Event.freeOp q.opId]
          | none => []
        let pg1 := { pg with current_query := none }
        let (pg2, ev2) := handle_error (some r.errMsg) pg1
        (pg2, evCb ++ evFree ++ ev2)
      else
        let (pg1, ev1) := on_timer_drain denv pg rest
        (pg1, evCb ++ ev1)

/-- on_timer embeds src/pquv.c:344-402: ignore the invocation if
`destroying` is set; route a `PQconsumeInput` failure (after
`uv_timer_stop`) to `handle_error`; return if `PQisBusy`; otherwise stop
the timer and drain the available results. -/
def on_timer (env : WPollEnv) (pg : PgAsync) : PgAsync × List Event :=
  if pg.destroying then (pg, [])
  else if !env.consumeOk then
    let pg1 := { pg with handle_active := false }
    let (pg2, ev2) := handle_error (some env.connErrMsg) pg1
    (pg2, Event.timerStop :: ev2)
  else if env.busy then (pg, [])
  else
    let pg1 := { pg with handle_active := false }
    let (pg2, ev2) := on_timer_drain env.next pg1 env.results
    (pg2, Event.timerStop :: ev2)

end Win

/-- allOkDenv is the dispatch environment in which every collaborator
call succeeds. -/
def allOkDenv : DispatchEnv :=
  { sendOk := true, sock := 0, pollInitOk := true, pollStartOk := true,
    connErrMsg := "", uvErrMsg := "" }

/-- mkOkPollEnv rs is the poll environment of a clean readiness firing:
uv status 0, input consumed, driver no longer busy, results `rs`
available, and an all-success environment for the following dispatch. -/
def mkOkPollEnv (rs : List Res) : PollEnv :=
  { status := 0, consumeOk := true, busy := false, results := rs,
    connErrMsg := "", uvErrMsg := "", next := allOkDenv }

/-- queueAll ops pg enqueues each operation of `ops` in order through
`pquv_queue`. -/
def queueAll (ops : List Query) (pg : PgAsync) : PgAsync :=
  ops.foldl (fun p q => (pquv_queue p (some q.sql) q.params q.has_cb q.opId).2) pg

/-- runSuccess driver pg fires `on_poll` once per entry of `driver`, the
k-th firing receiving the k-th result list; this is the reactor schedule
of a run in which every dispatched operation becomes ready exactly
once. -/
def runSuccess : List (List Res) → PgAsync → PgAsync × List Event
  | [], pg => (pg, [])
  | rs :: driver, pg =>
      let (pg1, ev1) := on_poll (mkOkPollEnv rs) pg
      let (pg2, ev2) := runSuccess driver pg1
      (pg2, ev1 ++ ev2)

/-- scenarioC1 ops driver is the complete life of a context on the happy
path: create on a good connection, enqueue `ops` in order, call
`pquv_execute`, let the reactor fire once per dispatched operation with
the driver's result lists, and finally deliver the close-completion
notification. -/
def scenarioC1 (ops : List Query) (driver : List (List Res)) : PgAsync × List Event :=
  let pg0 := (pquv_create true).getD freshPg
  let pg1 := queueAll ops pg0
  let (_, pg2, ev2) := pquv_execute allOkDenv pg1
  let (pg3, ev3) := runSuccess driver pg2
  let (pg4, ev4) := on_handle_closed pg3
  (pg4, ev2 ++ ev3 ++ ev4)

/-- awaiting q qs is the context state between a successful dispatch of
`q` and the readiness firing that drains it: `q` is current (absent from
the queue), `qs` is the remaining queue, the poll handle is initialized
and armed. -/
def awaiting (q : Query) (qs : List Query) : PgAsync :=
  { conn_present := true
    owns_connection := false
    is_connected := true
    is_executing := true
    destroying := false
    handle_initialized := true
    handle_active := true
    handle_closing := false
    query_queue := qs
    current_query := some q
    error_message := none
    freed := false }

/-- destroyedState em is the context state after `pg_async_destroy` ran
on a context whose handle had been initialized: destruction requested,
close pending, memory not yet freed. -/
def destroyedState (em : Option String) : PgAsync :=
  { conn_present := true
    owns_connection := false
    is_connected := true
    is_executing := false
    destroying := true
    handle_initialized := true
    handle_active := false
    handle_closing := true
    query_queue := []
    current_query := none
    error_message := em
    freed := false }

/-- successTrace ops driver is the event trace of draining and advancing
through `ops` on the happy path, one driver entry per operation: the
callbacks of the current operation, the poll stop and the free of that
operation, then either the dispatch events of the next operation or the
close request when the queue is exhausted. -/
def successTrace : List Query → List (List Res) → List Event
  | [], _ => []
  | _ :: _, [] => []
  | q :: qs, rs :: driver =>
      cbEvents q rs ++ [Event.pollStop, Event.freeOp q.opId] ++
      (match qs with
       | [] => [Event.closeRequest]
       | q' :: _ => sendEvents q' ++ [Event.pollInit, Event.pollStart]) ++
      successTrace qs driver

/-- opA and opB are two concrete operations used by the witnesses. -/
def opA : Query := { sql := "SELECT 1", params := [], has_cb := true, opId := 0 }

/-- opB is the second concrete witness operation. -/
def opB : Query := { sql := "SELECT 2", params := [], has_cb := true, opId := 1 }

/-- okTuples v is a concrete successful result object carrying value
`v`. -/
def okTuples (v : Nat) : Res := { status := ExecStatus.tuplesOk, val := v, errMsg := "" }

/-- badFatal is a concrete failing result object. -/
def badFatal : Res := { status := ExecStatus.fatalError, val := 99, errMsg := "boom" }

/-- sendFailEnv is a dispatch environment in which the libpq send
fails. -/
def sendFailEnv : DispatchEnv :=
  { sendOk := false, sock := 0, pollInitOk := true, pollStartOk := true,
    connErrMsg := "send failed", uvErrMsg := "" }

/-- wAllOkDenv is the all-success dispatch environment of the Windows
variant. -/
def wAllOkDenv : Win.WDispatchEnv :=
  { sendOk := true, timerInitOk := true, timerStartOk := true,
    connErrMsg := "", uvErrMsg := "" }

/-- mkOkWEnv rs is the clean timer firing of the Windows variant. -/
def mkOkWEnv (rs : List Res) : Win.WPollEnv :=
  { consumeOk := true, busy := false, results := rs, connErrMsg := "",
    next := wAllOkDenv }

/-- copyParams_eq shows the parameter copy loop of `pquv_queue`
(`params[i] ? strdup(params[i]) : NULL`) reproduces the input list. -/
lemma copyParams_eq (ps : List (Option String)) :
    ps.map (fun p => match p with
      | some v => some v
      | none => none) = ps := by
  induction ps with
  | nil => rfl
  | cons p ps ih => cases p <;> simp [ih]

/-- pquv_queue_eq characterizes a successful enqueue: return 0 and the
operation appended at the tail. -/
lemma pquv_queue_eq (pg : PgAsync) (q : Query) :
    pquv_queue pg (some q.sql) q.params q.has_cb q.opId =
      (0, { pg with query_queue := pg.query_queue ++ [q] }) := by
  simp [pquv_queue, copyParams_eq]

/-- queueAll_eq shows that enqueueing a list of operations appends them
in order, touching nothing else in the context. -/
lemma queueAll_eq (ops : List Query) (pg : PgAsync) :
    queueAll ops pg = { pg with query_queue := pg.query_queue ++ ops } := by
  induction ops generalizing pg with
  | nil => simp [queueAll]
  | cons q ops ih =>
      rw [queueAll, List.foldl_cons]
      have h1 : (pquv_queue pg (some q.sql) q.params q.has_cb q.opId).2 =
          { pg with query_queue := pg.query_queue ++ [q] } := by
        rw [pquv_queue_eq]
      rw [h1]
      have h2 := ih { pg with query_queue := pg.query_queue ++ [q] }
      rw [queueAll] at h2
      rw [h2]
      simp

/-- execute_next_query_allOk characterizes a dispatch in which every
collaborator call succeeds: the head is popped into `current_query`, the
send/init/start events fire, and the handle ends initialized and
armed. -/
lemma execute_next_query_allOk (pg : PgAsync) (q : Query) (qs : List Query)
    (h : pg.query_queue = q :: qs) :
    execute_next_query allOkDenv pg =
      ({ pg with current_query := some q, query_queue := qs,
                 handle_initialized := true, handle_active := true },
       sendEvents q ++ [Event.pollInit, Event.pollStart]) := by
  simp [execute_next_query, h, allOkDenv]

/-- on_poll_drain_ok characterizes the drain loop when every result has
a success status: one callback event per result object, then the poll
stop, the free of the current operation, and whatever the next dispatch
does. -/
lemma on_poll_drain_ok (denv : DispatchEnv) (pg : PgAsync) (q : Query) (rs : List Res)
    (hc : pg.current_query = some q)
    (hok : ∀ r ∈ rs, statusOk r.status = true) :
    on_poll_drain denv pg rs =
      ((execute_next_query denv { pg with handle_active := false, current_query := none }).1,
       cbEvents q rs ++ [Event.pollStop, Event.freeOp q.opId] ++
         (execute_next_query denv { pg with handle_active := false, current_query := none }).2) := by
  induction rs with
  | nil =>
      simp only [on_poll_drain, hc, cbEvents]
      cases hcb : q.has_cb <;> simp
  | cons r rs ih =>
      have hr : statusOk r.status = true := hok r (by simp)
      have hrest : ∀ r' ∈ rs, statusOk r'.status = true := fun r' hm => hok r' (by simp [hm])
      simp only [on_poll_drain, hc, hr, ih hrest, cbEvents]
      cases hcb : q.has_cb <;> simp

/-- exec_after_last characterizes the advance made after the last
operation is drained: with nothing left in the queue, the context is
destroyed, which requests the asynchronous close of the initialized poll
handle. -/
lemma exec_after_last (q : Query) :
    execute_next_query allOkDenv
        { awaiting q [] with handle_active := false, current_query := none } =
      (destroyedState none, [Event.closeRequest]) := by
  rfl

/-- on_poll_ok_last characterizes the readiness firing that drains the
last operation: its callbacks, the poll stop, its free, and the close
request of the destruction that follows. -/
lemma on_poll_ok_last (q : Query) (rs : List Res)
    (hok : ∀ r ∈ rs, statusOk r.status = true) :
    on_poll (mkOkPollEnv rs) (awaiting q []) =
      (destroyedState none,
       cbEvents q rs ++ [Event.pollStop, Event.freeOp q.opId, Event.closeRequest]) := by
  have hdrain := on_poll_drain_ok allOkDenv (awaiting q []) q rs rfl hok
  simp only [on_poll, mkOkPollEnv]
  rw [show (awaiting q []).destroying = false from rfl]
  simp only [if_false, Bool.false_eq_true]
  norm_num
  rw [hdrain, exec_after_last q]
  simp

/-- on_poll_ok_step characterizes a readiness firing that drains the
current operation and advances to the next: the state returns to
`awaiting` on the next operation. -/
lemma on_poll_ok_step (q q' : Query) (qs' : List Query) (rs : List Res)
    (hok : ∀ r ∈ rs, statusOk r.status = true) :
    on_poll (mkOkPollEnv rs) (awaiting q (q' :: qs')) =
      (awaiting q' qs',
       cbEvents q rs ++ [Event.pollStop, Event.freeOp q.opId] ++
         sendEvents q' ++ [Event.pollInit, Event.pollStart]) := by
  have hdrain := on_poll_drain_ok allOkDenv (awaiting q (q' :: qs')) q rs rfl hok
  have hexec := execute_next_query_allOk
    { awaiting q (q' :: qs') with handle_active := false, current_query := none }
    q' qs' rfl
  simp only [on_poll, mkOkPollEnv]
  rw [show (awaiting q (q' :: qs')).destroying = false from rfl]
  simp only [if_false, Bool.false_eq_true]
  norm_num
  rw [hdrain, hexec]
  simp only [Prod.mk.injEq]
  constructor
  · rfl
  · simp

/-- runSuccess_awaiting is the main happy-path induction: from the state
awaiting operation `q` with queue `qs`, a reactor schedule that fires
once per operation with all-success results produces exactly
`successTrace` and leaves the context destroyed with its close
pending. -/
lemma runSuccess_awaiting (qs : List Query) :
    ∀ (q : Query) (driver : List (List Res)),
      driver.length = qs.length + 1 →
      (∀ rs ∈ driver, ∀ r ∈ rs, statusOk r.status = true) →
      runSuccess driver (awaiting q qs) =
        (destroyedState none, successTrace (q :: qs) driver) := by
  induction qs with
  | nil =>
      intro q driver hlen hok
      match driver, hlen with
      | [rs], _ =>
          have hrs : ∀ r ∈ rs, statusOk r.status = true := hok rs (by simp)
          rw [runSuccess, on_poll_ok_last q rs hrs]
          simp [runSuccess, successTrace]
  | cons q' qs ih =>
      intro q driver hlen hok
      match driver with
      | rs :: driver' =>
          have hrs : ∀ r ∈ rs, statusOk r.status = true := hok rs (by simp)
          have hrest : ∀ rs' ∈ driver', ∀ r ∈ rs', statusOk r.status = true :=
            fun rs' hm => hok rs' (by simp [hm])
          have hlen' : driver'.length = qs.length + 1 := by simpa using hlen
          rw [runSuccess, on_poll_ok_step q q' qs rs hrs]
          dsimp only
          rw [ih q' driver' hlen' hrest]
          simp [successTrace]

/-- filterMap_cbProj_map computes the callback view of a block of
callback events. -/
lemma filterMap_cbProj_map (i : Nat) (rs : List Res) :
    List.filterMap (cbProj ∘ fun r => Event.callback i r.val) rs =
      rs.map (fun r => (i, r.val)) := by
  induction rs with
  | nil => rfl
  | cons r rs ih => simp [cbProj, ih]

/-- freeCtx_not_mem_sendEvents: dispatch send events never free the
context. -/
lemma freeCtx_not_mem_sendEvents (q : Query) : Event.freeCtx ∉ sendEvents q := by
  unfold sendEvents
  split <;> simp

/-- successTrace_cbView shows the user-callback view of the happy-path
trace: exactly the zip of operations (in FIFO submission order) with
their result lists, one callback per result object, flattened. -/
lemma successTrace_cbView : ∀ (ops : List Query) (driver : List (List Res)),
    (successTrace ops driver).filterMap cbProj =
      (List.zipWith (fun q rs =>
        if q.has_cb then rs.map (fun r => (q.opId, r.val)) else []) ops driver).flatten := by
  intro ops
  induction ops with
  | nil => intro driver; simp [successTrace]
  | cons q qs ih =>
      intro driver
      match driver with
      | [] => simp [successTrace]
      | rs :: driver' =>
          simp only [successTrace, List.filterMap_append, List.zipWith_cons_cons, List.flatten]
          rw [ih driver']
          have h1 : (cbEvents q rs).filterMap cbProj =
              (if q.has_cb then rs.map (fun r => (q.opId, r.val)) else []) := by
            cases hcb : q.has_cb <;> simp [cbEvents, hcb, filterMap_cbProj_map]
          rw [h1]
          have h2 : ([Event.pollStop, Event.freeOp q.opId] : List Event).filterMap cbProj = [] := by
            simp [cbProj]
          rw [h2]
          have h3 : (match qs with
              | [] => [Event.closeRequest]
              | q' :: _ => sendEvents q' ++ [Event.pollInit, Event.pollStart]).filterMap cbProj = [] := by
            match qs with
            | [] => simp [cbProj]
            | q' :: _ =>
                cases hp : decide (0 < q'.params.length) <;>
                  simp [sendEvents, cbProj] <;> split <;> simp [cbProj]
          rw [h3]
          simp

/-- successTrace_no_freeCtx shows the context free never occurs inside
the happy-path drain/advance trace (it occurs only in the
close-completion callback afterwards). -/
lemma successTrace_no_freeCtx : ∀ (ops : List Query) (driver : List (List Res)),
    Event.freeCtx ∉ successTrace ops driver := by
  intro ops
  induction ops with
  | nil => intro driver; simp [successTrace]
  | cons q qs ih =>
      intro driver
      match driver with
      | [] => simp [successTrace]
      | rs :: driver' =>
          simp only [successTrace]
          intro hmem
          simp only [List.mem_append] at hmem
          rcases hmem with ((h | h) | h) | h
          · cases hcb : q.has_cb <;> simp [cbEvents, hcb] at h
          · simp at h
          · match qs with
            | [] => simp at h
            | q' :: _ =>
                simp only [List.mem_append] at h
                rcases h with h | h
                · exact freeCtx_not_mem_sendEvents q' h
                · simp at h
          · exact ih driver' h

/-- scenarioC1_eq characterizes the whole happy-path scenario: the first
dispatch, the drain/advance trace, and the final deferred free; the
context memory ends freed. -/
lemma scenarioC1_eq (q : Query) (qs : List Query) (driver : List (List Res))
    (hlen : driver.length = qs.length + 1)
    (hok : ∀ rs ∈ driver, ∀ r ∈ rs, statusOk r.status = true) :
    scenarioC1 (q :: qs) driver =
      ({ destroyedState none with freed := true },
       (sendEvents q ++ [Event.pollInit, Event.pollStart]) ++
         successTrace (q :: qs) driver ++ [Event.freeCtx]) := by
  have hqueue : queueAll (q :: qs) ((pquv_create true).getD freshPg) =
      { freshPg with query_queue := q :: qs } := by
    rw [show (pquv_create true).getD freshPg = freshPg from rfl, queueAll_eq]
    rfl
  have hexec : pquv_execute allOkDenv { freshPg with query_queue := q :: qs } =
      (0, awaiting q qs, sendEvents q ++ [Event.pollInit, Event.pollStart]) := by
    have h := execute_next_query_allOk
      { freshPg with query_queue := q :: qs, is_executing := true } q qs rfl
    rw [pquv_execute]
    simp only [show ({ freshPg with query_queue := q :: qs } : PgAsync).is_connected = true
        from rfl,
      show ({ freshPg with query_queue := q :: qs } : PgAsync).is_executing = false from rfl,
      show ({ freshPg with query_queue := q :: qs } : PgAsync).query_queue = q :: qs from rfl]
    simp only [List.isEmpty_cons, Bool.not_true, Bool.false_eq_true, if_false]
    rw [h]
    dsimp only
    rfl
  rw [scenarioC1, hqueue]
  dsimp only
  rw [hexec]
  dsimp only
  rw [runSuccess_awaiting qs q driver hlen hok]
  rfl

/-- C1: for every sequence of operations enqueued via `pquv_queue` with
all driver responses successful, the result callbacks are invoked in
FIFO submission order, exactly once per result object the driver returns
for that operation (the callback view of the trace is exactly the
flattened zip of the operations, in submission order, with their result
lists), and the context is destroyed only after the last operation's
results have all been drained (the single context free is the very last
event of the run). -/
theorem c1_fifo_callbacks_and_deferred_destroy (q : Query) (qs : List Query)
    (driver : List (List Res))
    (hlen : driver.length = qs.length + 1)
    (hok : ∀ rs ∈ driver, ∀ r ∈ rs, statusOk r.status = true) :
    (scenarioC1 (q :: qs) driver).2.filterMap cbProj =
      (List.zipWith (fun p rs =>
        if p.has_cb then rs.map (fun r => (p.opId, r.val)) else []) (q :: qs) driver).flatten ∧
    (scenarioC1 (q :: qs) driver).2.getLast? = some Event.freeCtx ∧
    (scenarioC1 (q :: qs) driver).2.count Event.freeCtx = 1 ∧
    (scenarioC1 (q :: qs) driver).1.freed = true := by
  rw [scenarioC1_eq q qs driver hlen hok]
  refine ⟨?_, ?_, ?_, rfl⟩
  · simp only [List.filterMap_append, successTrace_cbView]
    have h1 : (sendEvents q).filterMap cbProj = [] := by
      unfold sendEvents
      split <;> simp [cbProj]
    rw [h1]
    simp [cbProj]
  · rw [List.getLast?_append_of_ne_nil _ (by simp)]
    rfl
  · rw [List.count_append, List.count_append]
    have h0 : (sendEvents q).count Event.freeCtx = 0 :=
      List.count_eq_zero.mpr (freeCtx_not_mem_sendEvents q)
    have h2 : (successTrace (q :: qs) driver).count Event.freeCtx = 0 :=
      List.count_eq_zero.mpr (successTrace_no_freeCtx _ _)
    rw [List.count_append, h0, h2]
    rfl

/-- Witness for C1: two queued operations, one successful result each;
the callbacks fire as `(0, 10)` then `(1, 20)`, and the single context
free is the final event. -/
theorem c1_fifo_callbacks_and_deferred_destroy_witness :
    (scenarioC1 [opA, opB] [[okTuples 10], [okTuples 20]]).2.filterMap cbProj =
      (List.zipWith (fun p rs =>
        if p.has_cb then rs.map (fun r => (p.opId, r.val)) else [])
        [opA, opB] [[okTuples 10], [okTuples 20]]).flatten ∧
    (scenarioC1 [opA, opB] [[okTuples 10], [okTuples 20]]).2.getLast? = some Event.freeCtx ∧
    (scenarioC1 [opA, opB] [[okTuples 10], [okTuples 20]]).2.count Event.freeCtx = 1 ∧
    (scenarioC1 [opA, opB] [[okTuples 10], [okTuples 20]]).1.freed = true :=
  c1_fifo_callbacks_and_deferred_destroy opA [opB] [[okTuples 10], [okTuples 20]]
    (by decide) (by decide)

/-- C2 (refuting the claim; the code re-initializes the reactor binding
on every dispatch): in a two-operation happy-path run, `uv_poll_init` is
called twice — once per dispatched operation — because
`execute_next_query` (src/pquv.c:323) calls it unconditionally on every
dispatch, with no lazily-initialize-once guard; the claim (and the spec,
which calls the re-initializing variant a defect) requires it to run
exactly once per context, with later dispatches only re-arming. -/
theorem c2_poll_handle_reinitialized_every_dispatch :
    (scenarioC1 [opA, opB] [[okTuples 10], [okTuples 20]]).2.count Event.pollInit = 2 ∧
    (Win.execute_next_query
        { sendOk := true, timerInitOk := true, timerStartOk := true,
          connErrMsg := "", uvErrMsg := "" }
        (awaiting opA [opB]) ).2.count Event.timerInit = 1 := by
  constructor
  · rfl
  · rfl

/-- count_in_freeOp_map: a non-freeOp event does not occur among the
frees of the queued operations. -/
lemma count_in_freeOp_map (e : Event) (h : ∀ i, e ≠ Event.freeOp i) (l : List Query) :
    (l.map (fun p => Event.freeOp p.opId)).count e = 0 := by
  rw [List.count_eq_zero]
  intro hmem
  rcases List.mem_map.mp hmem with ⟨p, _, hp⟩
  exact h p.opId hp.symm

/-- C3: on every destruction path the context is freed exactly once —
synchronously inside `pg_async_destroy` when the reactor binding was
never initialized, and otherwise not in `pg_async_destroy` at all (which
emits exactly one close request) but exactly once in the
close-completion callback `on_handle_closed`, never before. -/
theorem c3_context_freed_exactly_once (pg : PgAsync)
    (h1 : pg.destroying = false) (h2 : pg.freed = false) (h3 : pg.handle_closing = false) :
    (pg.handle_initialized = false →
       (pg_async_destroy pg).1.freed = true ∧
       (pg_async_destroy pg).2.count Event.freeCtx = 1 ∧
       (pg_async_destroy pg).2.count Event.closeRequest = 0) ∧
    (pg.handle_initialized = true →
       (pg_async_destroy pg).1.freed = false ∧
       (pg_async_destroy pg).2.count Event.freeCtx = 0 ∧
       (pg_async_destroy pg).2.count Event.closeRequest = 1 ∧
       (on_handle_closed (pg_async_destroy pg).1).1.freed = true ∧
       ((pg_async_destroy pg).2 ++ (on_handle_closed (pg_async_destroy pg).1).2).count
           Event.freeCtx = 1) := by
  have hmap1 : ∀ l : List Query, (l.map fun p => Event.freeOp p.opId).count Event.freeCtx = 0 :=
    fun l => count_in_freeOp_map _ (by intro i hcontra; cases hcontra) l
  have hmap2 : ∀ l : List Query,
      (l.map fun p => Event.freeOp p.opId).count Event.closeRequest = 0 :=
    fun l => count_in_freeOp_map _ (by intro i hcontra; cases hcontra) l
  by_cases he : pg.is_executing
  all_goals by_cases ho : (pg.conn_present && pg.owns_connection) = true
  all_goals by_cases hi : pg.handle_initialized
  all_goals
    simp [pg_async_destroy, pg_async_cancel, on_handle_closed, h1, h2, h3, he, ho, hi,
      List.count_append, hmap1, hmap2]

/-- Witness for C3 at a concrete in-flight context (initialized handle):
destruction requests the close and defers the free to the
close-completion callback. -/
theorem c3_context_freed_exactly_once_witness :
    ((awaiting opA []).handle_initialized = false →
       (pg_async_destroy (awaiting opA [])).1.freed = true ∧
       (pg_async_destroy (awaiting opA [])).2.count Event.freeCtx = 1 ∧
       (pg_async_destroy (awaiting opA [])).2.count Event.closeRequest = 0) ∧
    ((awaiting opA []).handle_initialized = true →
       (pg_async_destroy (awaiting opA [])).1.freed = false ∧
       (pg_async_destroy (awaiting opA [])).2.count Event.freeCtx = 0 ∧
       (pg_async_destroy (awaiting opA [])).2.count Event.closeRequest = 1 ∧
       (on_handle_closed (pg_async_destroy (awaiting opA [])).1).1.freed = true ∧
       ((pg_async_destroy (awaiting opA [])).2 ++
           (on_handle_closed (pg_async_destroy (awaiting opA [])).1).2).count
           Event.freeCtx = 1) :=
  c3_context_freed_exactly_once (awaiting opA []) rfl rfl rfl

/-- handle_error_awaiting characterizes the error funnel entered from an
in-flight state whose current operation was already freed and cleared:
stop the poll, free every queued operation, request the close. -/
lemma handle_error_awaiting (q : Query) (rest : List Query) (em : String) :
    handle_error (some em) { awaiting q rest with current_query := none } =
      (destroyedState (some em),
       [Event.pollStop] ++ rest.map (fun p => Event.freeOp p.opId) ++ [Event.closeRequest]) := by
  rfl

/-- on_poll_drain_err characterizes the drain loop when the results are
some successful ones followed by a failure: callbacks fire for the
successful results and for the failing one, the current operation is
freed, the error funnel stops the poll, frees the still-queued
operations and requests destruction; the results after the failing one
are never pulled and produce no events. -/
lemma on_poll_drain_err (denv : DispatchEnv) (q : Query) (rest : List Query)
    (good : List Res) (bad : Res) (abandoned : List Res)
    (hgood : ∀ r ∈ good, statusOk r.status = true)
    (hbad : statusOk bad.status = false) :
    on_poll_drain denv (awaiting q rest) (good ++ bad :: abandoned) =
      (destroyedState (some bad.errMsg),
       cbEvents q (good ++ [bad]) ++ ([Event.freeOp q.opId, Event.pollStop] ++
         rest.map (fun p => Event.freeOp p.opId) ++ [Event.closeRequest])) := by
  induction good with
  | nil =>
      simp only [List.nil_append, on_poll_drain]
      rw [show (awaiting q rest).current_query = some q from rfl]
      simp only [hbad]
      rw [handle_error_awaiting q rest bad.errMsg]
      cases hcb : q.has_cb <;> simp [cbEvents, hcb]
  | cons r good' ih =>
      have hr : statusOk r.status = true := hgood r (by simp)
      have hrest : ∀ r' ∈ good', statusOk r'.status = true :=
        fun r' hm => hgood r' (by simp [hm])
      simp only [List.cons_append, on_poll_drain]
      rw [show (awaiting q rest).current_query = some q from rfl]
      rw [if_neg (by simp [hr])]
      simp only [List.append_eq]
      rw [ih hrest]
      cases hcb : q.has_cb <;> simp [cbEvents, hcb]

/-- C4: when operation `q` yields a result with non-success status after
some successful ones, the drain loop delivers callbacks only up to and
including the failing result, stops pulling further results from that
fetch (the abandoned tail produces no events), frees the current
operation, routes to the error path — which frees the still-queued
operations k+1..N without ever dispatching them (no send events occur)
or invoking their callbacks — and triggers destruction of the
context. -/
theorem c4_failstatus_aborts_batch (q : Query) (rest : List Query)
    (good : List Res) (bad : Res) (abandoned : List Res)
    (hgood : ∀ r ∈ good, statusOk r.status = true)
    (hbad : statusOk bad.status = false) :
    on_poll (mkOkPollEnv (good ++ bad :: abandoned)) (awaiting q rest) =
      (destroyedState (some bad.errMsg),
       cbEvents q (good ++ [bad]) ++ ([Event.freeOp q.opId, Event.pollStop] ++
         rest.map (fun p => Event.freeOp p.opId) ++ [Event.closeRequest])) ∧
    (on_poll (mkOkPollEnv (good ++ bad :: abandoned)) (awaiting q rest)).1.destroying = true ∧
    (on_poll (mkOkPollEnv (good ++ bad :: abandoned)) (awaiting q rest)).1.query_queue = [] ∧
    (on_poll (mkOkPollEnv (good ++ bad :: abandoned)) (awaiting q rest)).2.filter
        isSendEvent = [] ∧
    (on_poll (mkOkPollEnv (good ++ bad :: abandoned)) (awaiting q rest)).2.filterMap cbProj =
      (if q.has_cb then (good ++ [bad]).map (fun r => (q.opId, r.val)) else []) := by
  have hmain : on_poll (mkOkPollEnv (good ++ bad :: abandoned)) (awaiting q rest) =
      (destroyedState (some bad.errMsg),
       cbEvents q (good ++ [bad]) ++ ([Event.freeOp q.opId, Event.pollStop] ++
         rest.map (fun p => Event.freeOp p.opId) ++ [Event.closeRequest])) := by
    simp only [on_poll, mkOkPollEnv]
    rw [show (awaiting q rest).destroying = false from rfl]
    simp only [if_false, Bool.false_eq_true]
    norm_num
    exact on_poll_drain_err allOkDenv q rest good bad abandoned hgood hbad
  refine ⟨hmain, by rw [hmain]; rfl, by rw [hmain]; rfl, ?_, ?_⟩
  · rw [hmain]
    simp only [List.filter_append]
    have h1 : (cbEvents q (good ++ [bad])).filter isSendEvent = [] := by
      refine List.filter_eq_nil_iff.mpr ?_
      intro e he
      cases hcb : q.has_cb
      · rw [cbEvents, hcb] at he
        simp at he
      · rw [cbEvents, hcb] at he
        rw [if_pos rfl] at he
        rcases List.mem_map.mp he with ⟨r, _, hr⟩
        rw [← hr]
        simp [isSendEvent]
    have h2 : (rest.map (fun p => Event.freeOp p.opId)).filter isSendEvent = [] := by
      refine List.filter_eq_nil_iff.mpr ?_
      intro e he
      rcases List.mem_map.mp he with ⟨p, _, hp⟩
      rw [← hp]
      simp [isSendEvent]
    rw [h1, h2]
    simp [isSendEvent]
  · rw [hmain]
    simp only [List.filterMap_append]
    have h1 : (cbEvents q (good ++ [bad])).filterMap cbProj =
        (if q.has_cb then (good ++ [bad]).map (fun r => (q.opId, r.val)) else []) := by
      cases hcb : q.has_cb <;> simp [cbEvents, hcb, filterMap_cbProj_map, cbProj]
    have h2 : (rest.map (fun p => Event.freeOp p.opId)).filterMap cbProj = [] := by
      refine List.filterMap_eq_nil_iff.mpr ?_
      intro e he
      rcases List.mem_map.mp he with ⟨p, _, hp⟩
      rw [← hp]
      simp [cbProj]
    rw [h1, h2]
    simp [cbProj]

/-- Witness for C4: operation `opA` fails after one successful result
while `opB` is still queued; `opB` is freed without being dispatched or
called back, and destruction is triggered. -/
theorem c4_failstatus_aborts_batch_witness :
    on_poll (mkOkPollEnv ([okTuples 10] ++ badFatal :: [okTuples 11])) (awaiting opA [opB]) =
      (destroyedState (some badFatal.errMsg),
       cbEvents opA ([okTuples 10] ++ [badFatal]) ++ ([Event.freeOp opA.opId, Event.pollStop] ++
         [opB].map (fun p => Event.freeOp p.opId) ++ [Event.closeRequest])) ∧
    (on_poll (mkOkPollEnv ([okTuples 10] ++ badFatal :: [okTuples 11]))
        (awaiting opA [opB])).1.destroying = true ∧
    (on_poll (mkOkPollEnv ([okTuples 10] ++ badFatal :: [okTuples 11]))
        (awaiting opA [opB])).1.query_queue = [] ∧
    (on_poll (mkOkPollEnv ([okTuples 10] ++ badFatal :: [okTuples 11]))
        (awaiting opA [opB])).2.filter isSendEvent = [] ∧
    (on_poll (mkOkPollEnv ([okTuples 10] ++ badFatal :: [okTuples 11]))
        (awaiting opA [opB])).2.filterMap cbProj =
      (if opA.has_cb then ([okTuples 10] ++ [badFatal]).map (fun r => (opA.opId, r.val))
       else []) :=
  c4_failstatus_aborts_batch opA [opB] [okTuples 10] badFatal [okTuples 11]
    (by decide) (by decide)

/-- C5 (refuting the claim on the send-failure path): `pg_async_cancel`
does free every queued operation, reset the queue to empty and leave the
current operation untouched (last conjunct), but when the dispatch send
fails the popped current operation is freed by nobody: the run emits no
`freeOp` for it even though the context itself is destroyed and freed,
while `current_query` still points at the popped operation — a leak,
contradicting "the popped current operation is freed exactly once on
every error path". -/
theorem c5_send_failure_leaks_current_operation :
    (pquv_execute sendFailEnv { freshPg with query_queue := [opA] }).2.2.count
        (Event.freeOp opA.opId) = 0 ∧
    (pquv_execute sendFailEnv { freshPg with query_queue := [opA] }).2.1.freed = true ∧
    (pquv_execute sendFailEnv { freshPg with query_queue := [opA] }).2.1.current_query =
      some opA ∧
    (pquv_execute sendFailEnv { freshPg with query_queue := [opA] }).2.2 =
      [Event.sendSimple opA.opId opA.sql, Event.pollStop, Event.freeCtx] ∧
    pg_async_cancel (awaiting opA [opB]) =
      ({ awaiting opA [opB] with
          query_queue := [], is_executing := false, handle_active := false },
       [Event.pollStop, Event.pqcancel, Event.freeOp opB.opId]) := by
  refine ⟨rfl, rfl, rfl, rfl, ?_⟩
  rfl

/-- cancel_destroying_eq: cancellation never touches the `destroying`
flag. -/
lemma cancel_destroying_eq (pg : PgAsync) :
    (pg_async_cancel pg).1.destroying = pg.destroying := by
  cases he : pg.is_executing <;> simp [pg_async_cancel, he]

/-- destroy_destroying: after `pg_async_destroy`, the `destroying` flag
is always set (it is set on first entry and never cleared). -/
lemma destroy_destroying (pg : PgAsync) : (pg_async_destroy pg).1.destroying = true := by
  cases hd : pg.destroying
  · cases he : pg.is_executing
    all_goals by_cases ho : (pg.conn_present && pg.owns_connection) = true
    all_goals cases hi : pg.handle_initialized
    all_goals cases hc : pg.handle_closing
    all_goals simp [pg_async_destroy, pg_async_cancel, hd, he, ho, hi, hc]
  · simp [pg_async_destroy, hd]

/-- handle_error_destroying: the error funnel always ends with the
`destroying` flag set. -/
lemma handle_error_destroying (e : Option String) (pg : PgAsync) :
    (handle_error e pg).1.destroying = true := by
  cases he : pg.is_executing <;> simp [handle_error, he, destroy_destroying]

/-- execute_next_query_destroying: a dispatch never clears an already
set `destroying` flag. -/
lemma execute_next_query_destroying (env : DispatchEnv) (pg : PgAsync)
    (h : pg.destroying = true) :
    (execute_next_query env pg).1.destroying = true := by
  match hq : pg.query_queue with
  | [] => simp [execute_next_query, hq, destroy_destroying]
  | q :: rest =>
      cases hs : env.sendOk
      · simp [execute_next_query, hq, hs, handle_error_destroying]
      · by_cases hsock : env.sock < 0
        · simp [execute_next_query, hq, hs, hsock, handle_error_destroying]
        · cases hi : env.pollInitOk
          · simp [execute_next_query, hq, hs, hsock, hi, handle_error_destroying]
          · cases hst : env.pollStartOk
            · simp [execute_next_query, hq, hs, hsock, hi, hst, handle_error_destroying]
            · simp [execute_next_query, hq, hs, hsock, hi, hst, h]

/-- C6: the `destroying` flag, once set, is never cleared by any
operation of the scheduler; with it set, a readiness or timer callback
invocation returns immediately with no state change and no events (so no
user callback), and a re-entrant call to destruction returns immediately
without repeating any destruction step (no events, no state change). -/
theorem c6_destroying_guard (pg : PgAsync) (env : PollEnv) (wenv : Win.WPollEnv)
    (denv : DispatchEnv) (e : Option String) (h : pg.destroying = true) :
    on_poll env pg = (pg, []) ∧
    Win.on_timer wenv pg = (pg, []) ∧
    pg_async_destroy pg = (pg, []) ∧
    Win.pg_async_destroy pg = (pg, []) ∧
    (pg_async_cancel pg).1.destroying = true ∧
    (handle_error e pg).1.destroying = true ∧
    (execute_next_query denv pg).1.destroying = true ∧
    (pquv_execute denv pg).2.1.destroying = true := by
  refine ⟨by simp [on_poll, h], by simp [Win.on_timer, h],
    by simp [pg_async_destroy, h], by simp [Win.pg_async_destroy, h],
    by rw [cancel_destroying_eq]; exact h,
    handle_error_destroying e pg,
    execute_next_query_destroying denv pg h, ?_⟩
  cases hcon : pg.is_connected
  · simp [pquv_execute, hcon, h]
  · cases hex : pg.is_executing
    · cases hq : pg.query_queue.isEmpty
      · have hne : pg.query_queue ≠ [] := by
          intro hnil
          rw [hnil] at hq
          simp at hq
        match hql : pg.query_queue, hne with
        | q :: rest, _ =>
            simp [pquv_execute, hcon, hex, hq]
            exact execute_next_query_destroying denv _ h
      · simp [pquv_execute, hcon, hex, hq, destroy_destroying]
    · simp [pquv_execute, hcon, hex, h]

/-- Witness for C6 at a concrete destroyed context. -/
theorem c6_destroying_guard_witness :
    on_poll (mkOkPollEnv []) (destroyedState none) = (destroyedState none, []) ∧
    Win.on_timer (mkOkWEnv []) (destroyedState none) = (destroyedState none, []) ∧
    pg_async_destroy (destroyedState none) = (destroyedState none, []) ∧
    Win.pg_async_destroy (destroyedState none) = (destroyedState none, []) ∧
    (pg_async_cancel (destroyedState none)).1.destroying = true ∧
    (handle_error none (destroyedState none)).1.destroying = true ∧
    (execute_next_query allOkDenv (destroyedState none)).1.destroying = true ∧
    (pquv_execute allOkDenv (destroyedState none)).2.1.destroying = true :=
  c6_destroying_guard (destroyedState none) (mkOkPollEnv []) (mkOkWEnv [])
    allOkDenv none rfl

/-- filterMap_cbProj_freeOp: the frees of queued operations contain no
callback events. -/
lemma filterMap_cbProj_freeOp (l : List Query) :
    List.filterMap (cbProj ∘ fun p => Event.freeOp p.opId) l = [] := by
  induction l with
  | nil => rfl
  | cons p l ih => simp [cbProj, ih]

/-- cancel_cbView: cancellation invokes no user callback. -/
lemma cancel_cbView (pg : PgAsync) : (pg_async_cancel pg).2.filterMap cbProj = [] := by
  cases he : pg.is_executing <;>
    simp [pg_async_cancel, he, cbProj, List.filterMap_map, filterMap_cbProj_freeOp]

/-- destroy_cbView: destruction invokes no user callback. -/
lemma destroy_cbView (pg : PgAsync) : (pg_async_destroy pg).2.filterMap cbProj = [] := by
  cases hd : pg.destroying
  · cases he : pg.is_executing
    all_goals by_cases ho : (pg.conn_present && pg.owns_connection) = true
    all_goals cases hi : pg.handle_initialized
    all_goals cases hc : pg.handle_closing
    all_goals simp [pg_async_destroy, pg_async_cancel, hd, he, ho, hi, hc, cbProj,
      List.filterMap_map, filterMap_cbProj_freeOp]
  · simp [pg_async_destroy, hd]

/-- pquv_execute_dispatch characterizes the accepted call on a non-empty
queue with an all-success dispatch environment: return 0, pop the head
into `current_query`, set `is_executing`, and dispatch it. -/
lemma pquv_execute_dispatch (pg : PgAsync) (q : Query) (qs : List Query)
    (h1 : pg.is_connected = true) (h2 : pg.is_executing = false)
    (h3 : pg.query_queue = q :: qs) :
    pquv_execute allOkDenv pg =
      (0, { pg with
              is_executing := true, current_query := some q, query_queue := qs,
              handle_initialized := true, handle_active := true },
       sendEvents q ++ [Event.pollInit, Event.pollStart]) := by
  obtain ⟨cp, oc, ic, ie, dg, hin, ha, hcl, qq, cq, em, fr⟩ := pg
  dsimp only at h1 h2 h3
  subst h1
  subst h2
  subst h3
  have hexec := execute_next_query_allOk
    ⟨cp, oc, true, true, dg, hin, ha, hcl, q :: qs, cq, em, fr⟩ q qs rfl
  rw [pquv_execute]
  simp only [Bool.not_true, Bool.false_eq_true, if_false, List.isEmpty_cons]
  rw [hexec]

/-- C7: `pquv_execute` returns -1 when the context is not connected, and
-1 on the busy case with no second dispatch and all state unchanged
(the result is exactly the unchanged context with no events); with an
empty queue it returns 0 and immediately destroys the context without
invoking any callback; otherwise it returns 0, pops the head operation
into `current_query`, sets `is_executing`, and dispatches it. -/
theorem c7_execute_contract (pg : PgAsync) (denv : DispatchEnv) (q : Query)
    (qs : List Query) :
    (pg.is_connected = false → pquv_execute denv pg = (-1, pg, [])) ∧
    (pg.is_connected = true → pg.is_executing = true →
       pquv_execute denv pg = (-1, pg, [])) ∧
    (pg.is_connected = true → pg.is_executing = false → pg.query_queue = [] →
       (pquv_execute denv pg).1 = 0 ∧
       (pquv_execute denv pg).2.1.destroying = true ∧
       (pquv_execute denv pg).2.2.filterMap cbProj = []) ∧
    (pg.is_connected = true → pg.is_executing = false → pg.query_queue = q :: qs →
       pquv_execute allOkDenv pg =
         (0, { pg with
                 is_executing := true, current_query := some q, query_queue := qs,
                 handle_initialized := true, handle_active := true },
          sendEvents q ++ [Event.pollInit, Event.pollStart])) := by
  refine ⟨?_, ?_, ?_, ?_⟩
  · intro h
    simp [pquv_execute, h]
  · intro h1 h2
    simp [pquv_execute, h1, h2]
  · intro h1 h2 h3
    refine ⟨?_, ?_, ?_⟩ <;>
      simp [pquv_execute, h1, h2, h3, destroy_destroying, destroy_cbView]
  · intro h1 h2 h3
    exact pquv_execute_dispatch pg q qs h1 h2 h3

/-- Witness for C7: a fresh context with one queued operation accepts
the call, pops the operation and dispatches it. -/
theorem c7_execute_contract_witness :
    pquv_execute allOkDenv { freshPg with query_queue := [opA] } =
      (0, { { freshPg with query_queue := [opA] } with
              is_executing := true, current_query := some opA, query_queue := [],
              handle_initialized := true, handle_active := true },
       sendEvents opA ++ [Event.pollInit, Event.pollStart]) :=
  (c7_execute_contract { freshPg with query_queue := [opA] } allOkDenv opA []).2.2.2
    rfl rfl rfl

/-- C8: an operation enqueued with K parameters hands the driver at
dispatch exactly those K parameter values, in the original submission
order, with null parameters passed through as null (`none`), never
coerced to an empty string: the send event carries the very list given
to `pquv_queue` (when K = 0 the parameterless send is used). -/
theorem c8_param_passthrough (sql : String) (ps : List (Option String)) (b : Bool) (i : Nat) :
    (pquv_execute allOkDenv (pquv_queue freshPg (some sql) ps b i).2).2.2 =
      (if 0 < ps.length then [Event.sendParams i sql ps] else [Event.sendSimple i sql]) ++
        [Event.pollInit, Event.pollStart] := by
  have hq : (pquv_queue freshPg (some sql) ps b i).2 =
      { freshPg with query_queue := [⟨sql, ps, b, i⟩] } := by
    have h := pquv_queue_eq freshPg ⟨sql, ps, b, i⟩
    simpa using congrArg Prod.snd h
  rw [hq]
  rw [pquv_execute_dispatch { freshPg with query_queue := [⟨sql, ps, b, i⟩] }
    ⟨sql, ps, b, i⟩ [] rfl rfl rfl]
  simp [sendEvents]

/-- on_timer_drain_ok characterizes the Windows drain loop on
all-success results: callbacks, then the free of the current operation,
then the next dispatch (the timer was already stopped before the
loop). -/
lemma on_timer_drain_ok (denv : Win.WDispatchEnv) (pg : PgAsync) (q : Query) (rs : List Res)
    (hc : pg.current_query = some q)
    (hok : ∀ r ∈ rs, statusOk r.status = true) :
    Win.on_timer_drain denv pg rs =
      ((Win.execute_next_query denv { pg with current_query := none }).1,
       cbEvents q rs ++ [Event.freeOp q.opId] ++
         (Win.execute_next_query denv { pg with current_query := none }).2) := by
  induction rs with
  | nil =>
      simp only [Win.on_timer_drain, hc, cbEvents]
      cases hcb : q.has_cb <;> simp
  | cons r rs ih =>
      have hr : statusOk r.status = true := hok r (by simp)
      have hrest : ∀ r' ∈ rs, statusOk r'.status = true := fun r' hm => hok r' (by simp [hm])
      simp only [Win.on_timer_drain, hc, hr, ih hrest, cbEvents]
      cases hcb : q.has_cb <;> simp

/-- C9 counterexample: in the Unix readiness callback `on_poll`, the
first event of a not-busy firing is already a result delivery (the user
callback), and the disarm (`uv_poll_stop`, src/pquv.c:462) only comes
after the whole drain loop — refuting "the active readiness registration
is disarmed before the loop that pulls and delivers result objects
begins" at this concrete input. -/
theorem c9_counterexample_poll_disarms_after_drain :
    (on_poll (mkOkPollEnv [okTuples 1]) (awaiting opA [])).2 =
      [Event.callback 0 1, Event.pollStop, Event.freeOp 0, Event.closeRequest] ∧
    (on_poll (mkOkPollEnv [okTuples 1]) (awaiting opA [])).2.head? =
      some (Event.callback 0 1) := ⟨rfl, rfl⟩

/-- C9 amended: the timer variant (`on_timer`) disarms the registration
before the drain loop (the stop is the first event of a not-busy
firing), while the poll variant (`on_poll`) disarms it only after the
drain loop has delivered all callbacks of the current operation; in both
variants the registration is re-armed only by the next dispatch (no
start event occurs in a final firing). -/
theorem c9_amended_disarm_order (q : Query) (rs : List Res)
    (hok : ∀ r ∈ rs, statusOk r.status = true) :
    Win.on_timer (mkOkWEnv rs) (awaiting q []) =
      (destroyedState none,
       Event.timerStop :: (cbEvents q rs ++ [Event.freeOp q.opId, Event.closeRequest])) ∧
    on_poll (mkOkPollEnv rs) (awaiting q []) =
      (destroyedState none,
       cbEvents q rs ++ [Event.pollStop, Event.freeOp q.opId, Event.closeRequest]) := by
  constructor
  · have hdrain := on_timer_drain_ok wAllOkDenv
      { awaiting q [] with handle_active := false } q rs rfl hok
    have hexec : Win.execute_next_query wAllOkDenv
        { ({ awaiting q [] with handle_active := false } : PgAsync) with
            current_query := none } =
        (destroyedState none, [Event.closeRequest]) := rfl
    rw [hexec] at hdrain
    simp only [Win.on_timer, mkOkWEnv]
    rw [if_neg (show ¬((awaiting q []).destroying = true) by simp [awaiting])]
    simp only [Bool.not_true, Bool.false_eq_true, if_false]
    rw [hdrain]
    simp
  · exact on_poll_ok_last q rs hok

/-- Witness for the amended C9 at a concrete one-result firing. -/
theorem c9_amended_disarm_order_witness :
    Win.on_timer (mkOkWEnv [okTuples 1]) (awaiting opB []) =
      (destroyedState none,
       Event.timerStop :: (cbEvents opB [okTuples 1] ++
         [Event.freeOp opB.opId, Event.closeRequest])) ∧
    on_poll (mkOkPollEnv [okTuples 1]) (awaiting opB []) =
      (destroyedState none,
       cbEvents opB [okTuples 1] ++
         [Event.pollStop, Event.freeOp opB.opId, Event.closeRequest]) :=
  c9_amended_disarm_order opB [okTuples 1] (by decide)

/-- count_pqfinish_sendEvents: send events never finalize the
connection. -/
lemma count_pqfinish_sendEvents (q : Query) : (sendEvents q).count Event.pqfinish = 0 := by
  unfold sendEvents
  split <;> rfl

/-- cancel_frame: cancellation does not finalize the connection and
leaves the connection handle and ownership flag untouched. -/
lemma cancel_frame (pg : PgAsync) :
    (pg_async_cancel pg).1.owns_connection = pg.owns_connection ∧
    (pg_async_cancel pg).1.conn_present = pg.conn_present ∧
    (pg_async_cancel pg).2.count Event.pqfinish = 0 := by
  have hm : ∀ l : List Query, (l.map fun p => Event.freeOp p.opId).count Event.pqfinish = 0 :=
    fun l => count_in_freeOp_map _ (by intro i hh; cases hh) l
  cases he : pg.is_executing <;>
    simp [pg_async_cancel, he, hm, List.count_append]

/-- destroy_frame: on a context that does not own its connection,
destruction emits no `PQfinish` and leaves the connection handle
present. -/
lemma destroy_frame (pg : PgAsync) (h : pg.owns_connection = false) :
    (pg_async_destroy pg).1.owns_connection = false ∧
    (pg_async_destroy pg).1.conn_present = pg.conn_present ∧
    (pg_async_destroy pg).2.count Event.pqfinish = 0 := by
  have hm : ∀ l : List Query, (l.map fun p => Event.freeOp p.opId).count Event.pqfinish = 0 :=
    fun l => count_in_freeOp_map _ (by intro i hh; cases hh) l
  cases hd : pg.destroying
  · cases he : pg.is_executing
    all_goals cases hi : pg.handle_initialized
    all_goals cases hc : pg.handle_closing
    all_goals simp [pg_async_destroy, pg_async_cancel, hd, he, hi, hc, h, hm,
      List.count_append]
  · simp [pg_async_destroy, hd, h]

/-- handle_error_frame: the error funnel, on a context that does not own
its connection, emits no `PQfinish` and leaves the connection handle
present. -/
lemma handle_error_frame (e : Option String) (pg : PgAsync) (h : pg.owns_connection = false) :
    (handle_error e pg).1.owns_connection = false ∧
    (handle_error e pg).1.conn_present = pg.conn_present ∧
    (handle_error e pg).2.count Event.pqfinish = 0 := by
  have hm : ∀ l : List Query, (l.map fun p => Event.freeOp p.opId).count Event.pqfinish = 0 :=
    fun l => count_in_freeOp_map _ (by intro i hh; cases hh) l
  cases he : pg.is_executing
  all_goals cases hd : pg.destroying
  all_goals cases hi : pg.handle_initialized
  all_goals cases hc : pg.handle_closing
  all_goals simp [handle_error, pg_async_cancel, pg_async_destroy, he, hd, hi, hc, h, hm,
    List.count_append]

/-- execute_next_query_frame: a dispatch, on a context that does not own
its connection, emits no `PQfinish` and leaves the connection handle
present. -/
lemma execute_next_query_frame (env : DispatchEnv) (pg : PgAsync)
    (h : pg.owns_connection = false) :
    (execute_next_query env pg).1.owns_connection = false ∧
    (execute_next_query env pg).1.conn_present = pg.conn_present ∧
    (execute_next_query env pg).2.count Event.pqfinish = 0 := by
  match hq : pg.query_queue with
  | [] =>
      simp only [execute_next_query, hq]
      exact destroy_frame _ h
  | q :: rest =>
      cases hs : env.sendOk
      · obtain ⟨f1, f2, f3⟩ := handle_error_frame (some env.connErrMsg)
          { pg with current_query := some q, query_queue := rest } h
        simp only [execute_next_query, hq, hs, Bool.not_false, if_true]
        exact ⟨f1, f2, by simp [List.count_append, f3, count_pqfinish_sendEvents]⟩
      · by_cases hsock : env.sock < 0
        · obtain ⟨f1, f2, f3⟩ := handle_error_frame (some "Invalid PostgreSQL socket")
            { pg with current_query := some q, query_queue := rest } h
          simp only [execute_next_query, hq, hs, hsock, Bool.not_true, Bool.false_eq_true,
            if_false, if_true]
          exact ⟨f1, f2, by simp [List.count_append, f3, count_pqfinish_sendEvents]⟩
        · cases hi : env.pollInitOk
          · obtain ⟨f1, f2, f3⟩ := handle_error_frame (some env.uvErrMsg)
              { pg with current_query := some q, query_queue := rest } h
            simp only [execute_next_query, hq, hs, hsock, hi, Bool.not_true, Bool.not_false,
              Bool.false_eq_true, if_false, if_true]
            exact ⟨f1, f2, by simp [List.count_append, f3, count_pqfinish_sendEvents]⟩
          · cases hst : env.pollStartOk
            · obtain ⟨f1, f2, f3⟩ := handle_error_frame (some env.uvErrMsg)
                { pg with
                    current_query := some q, query_queue := rest,
                    handle_initialized := true } h
              simp only [execute_next_query, hq, hs, hsock, hi, hst, Bool.not_true,
                Bool.not_false, Bool.false_eq_true, if_false, if_true]
              exact ⟨f1, f2, by simp [List.count_append, f3, count_pqfinish_sendEvents]⟩
            · simp [execute_next_query, hq, hs, hsock, hi, hst, h,
                count_pqfinish_sendEvents, List.count_append]

/-- on_poll_drain_frame: the drain loop, on a context that does not own
its connection, emits no `PQfinish`. -/
lemma on_poll_drain_frame (denv : DispatchEnv) (pg : PgAsync) (rs : List Res)
    (h : pg.owns_connection = false) :
    (on_poll_drain denv pg rs).1.owns_connection = false ∧
    (on_poll_drain denv pg rs).1.conn_present = pg.conn_present ∧
    (on_poll_drain denv pg rs).2.count Event.pqfinish = 0 := by
  induction rs with
  | nil =>
      have hf := execute_next_query_frame denv
        { pg with handle_active := false, current_query := none } h
      have h3 : (execute_next_query denv
          { pg with handle_active := false, current_query := none }).2.count
          Event.pqfinish = 0 := hf.2.2
      simp only [on_poll_drain]
      cases hc : pg.current_query
      · exact ⟨hf.1, hf.2.1, by simp [List.count_append, h3]⟩
      · exact ⟨hf.1, hf.2.1, by simp [List.count_append, h3]⟩
  | cons r rs ih =>
      by_cases hst : statusOk r.status = false
      · have hf := handle_error_frame (some r.errMsg) { pg with current_query := none } h
        have h3 : (handle_error (some r.errMsg)
            { pg with current_query := none }).2.count Event.pqfinish = 0 := hf.2.2
        simp only [on_poll_drain, if_pos hst]
        cases hc : pg.current_query with
        | none => exact ⟨hf.1, hf.2.1, by simp [List.count_append, h3]⟩
        | some q =>
            cases hcb : q.has_cb <;>
              exact ⟨hf.1, hf.2.1, by simp [hcb, List.count_append, h3]⟩
      · obtain ⟨f1, f2, f3⟩ := ih
        simp only [on_poll_drain, if_neg hst]
        cases hc : pg.current_query with
        | none => exact ⟨f1, f2, by simp [List.count_append, f3]⟩
        | some q =>
            cases hcb : q.has_cb <;>
              exact ⟨f1, f2, by simp [hcb, List.count_append, f3]⟩

/-- on_poll_frame: a readiness firing, on a context that does not own
its connection, emits no `PQfinish`. -/
lemma on_poll_frame (env : PollEnv) (pg : PgAsync) (h : pg.owns_connection = false) :
    (on_poll env pg).1.owns_connection = false ∧
    (on_poll env pg).1.conn_present = pg.conn_present ∧
    (on_poll env pg).2.count Event.pqfinish = 0 := by
  by_cases hd : pg.destroying = true
  · simp [on_poll, hd, h]
  · by_cases hs : env.status < 0
    · simpa [on_poll, hd, hs] using handle_error_frame (some env.uvErrMsg) pg h
    · cases hco : env.consumeOk
      · simpa [on_poll, hd, hs, hco] using handle_error_frame (some env.connErrMsg) pg h
      · cases hb : env.busy
        · simpa [on_poll, hd, hs, hco, hb] using on_poll_drain_frame env.next pg env.results h
        · simp [on_poll, hd, hs, hco, hb, h]

/-- w_destroy_frame: the Windows destruction variant, on a context that
does not own its connection, emits no `PQfinish`. -/
lemma w_destroy_frame (pg : PgAsync) (h : pg.owns_connection = false) :
    (Win.pg_async_destroy pg).1.owns_connection = false ∧
    (Win.pg_async_destroy pg).1.conn_present = pg.conn_present ∧
    (Win.pg_async_destroy pg).2.count Event.pqfinish = 0 := by
  have hm : ∀ l : List Query, (l.map fun p => Event.freeOp p.opId).count Event.pqfinish = 0 :=
    fun l => count_in_freeOp_map _ (by intro i hh; cases hh) l
  cases hd : pg.destroying
  · cases he : pg.is_executing
    all_goals cases hi : pg.handle_initialized
    all_goals cases hc : pg.handle_closing
    all_goals simp [Win.pg_async_destroy, Win.pg_async_cancel, hd, he, hi, hc, h, hm,
      List.count_append]
  · simp [Win.pg_async_destroy, hd, h]

/-- C10: every context produced by `pquv_create` has `owns_connection`
false, and with that flag false no destruction path — `pg_async_destroy`
on either platform, the error funnel, a readiness firing, or a
`pquv_execute` call — ever emits `PQfinish`: the caller's connection
handle is left untouched. -/
theorem c10_connection_not_finalized (c : Bool) (pg0 pg : PgAsync) (env : PollEnv)
    (denv : DispatchEnv) (e : Option String)
    (hc : pquv_create c = some pg0) (h : pg.owns_connection = false) :
    pg0.owns_connection = false ∧
    (pg_async_destroy pg).2.count Event.pqfinish = 0 ∧
    (pg_async_destroy pg).1.conn_present = pg.conn_present ∧
    (Win.pg_async_destroy pg).2.count Event.pqfinish = 0 ∧
    (handle_error e pg).2.count Event.pqfinish = 0 ∧
    (on_poll env pg).2.count Event.pqfinish = 0 ∧
    (pquv_execute denv pg).2.2.count Event.pqfinish = 0 := by
  have hcreate : pg0.owns_connection = false := by
    cases c
    · simp [pquv_create] at hc
    · simp only [pquv_create, Bool.not_true, Bool.false_eq_true, if_false] at hc
      rw [← Option.some_inj.mp hc]
  refine ⟨hcreate, (destroy_frame pg h).2.2, (destroy_frame pg h).2.1,
    (w_destroy_frame pg h).2.2, (handle_error_frame e pg h).2.2,
    (on_poll_frame env pg h).2.2, ?_⟩
  cases hcon : pg.is_connected
  · simp [pquv_execute, hcon]
  · cases hex : pg.is_executing
    · cases hq : pg.query_queue.isEmpty
      · have hne : pg.query_queue ≠ [] := by
          intro hnil
          rw [hnil] at hq
          simp at hq
        match hql : pg.query_queue, hne with
        | q :: rest, _ =>
            simp only [pquv_execute, hcon, hex, hq]
            simp only [Bool.not_true, Bool.false_eq_true, if_false]
            refine (execute_next_query_frame denv _ ?_).2.2
            exact h
      · simp only [pquv_execute, hcon, hex, hq]
        simp only [Bool.not_true, Bool.false_eq_true, if_false, if_true]
        exact (destroy_frame pg h).2.2
    · simp [pquv_execute, hcon, hex]

/-- Witness for C10 at a freshly created context. -/
theorem c10_connection_not_finalized_witness :
    freshPg.owns_connection = false ∧
    (pg_async_destroy freshPg).2.count Event.pqfinish = 0 ∧
    (pg_async_destroy freshPg).1.conn_present = freshPg.conn_present ∧
    (Win.pg_async_destroy freshPg).2.count Event.pqfinish = 0 ∧
    (handle_error none freshPg).2.count Event.pqfinish = 0 ∧
    (on_poll (mkOkPollEnv []) freshPg).2.count Event.pqfinish = 0 ∧
    (pquv_execute allOkDenv freshPg).2.2.count Event.pqfinish = 0 :=
  c10_connection_not_finalized true freshPg freshPg (mkOkPollEnv []) allOkDenv none rfl rfl
